import Mathlib

/-!
Shallow embedding of the waygate-io fs-js file abstraction.

The embedding follows the main source file (the one defining the File base
class with start and end offsets, NodeFile, DenoFile, BunFile, the
directory trees and the top-level openFile dispatch).

Modelling conventions:
- JavaScript numbers that are always integers in the code are Int.
- A field that can be the JavaScript value undefined is Option Int; the
  arithmetic end - start with undefined operands produces NaN, modelled as
  none.
- JavaScript truthiness of an optional integer argument: undefined is
  falsy, 0 is falsy, every other integer is truthy.
-/

namespace FsJs

def RUNTIME_BROWSER : Nat := 0
def RUNTIME_NODE : Nat := 1
def RUNTIME_DENO : Nat := 2
def RUNTIME_BUN : Nat := 3

/-- JavaScript truthiness of an optional integer value: undefined (none)
and 0 are falsy, every other integer is truthy. -/
def truthy : Option Int → Bool
  | none => false
  | some v => v != 0

/-- The File base class state: an underlying native handle (identified by
a number), the start offset and the end offset, both possibly undefined.
The constructor stores f, start, end and computes size = end - start. -/
structure JSFile where
  handle : Nat
  start : Option Int
  endPos : Option Int
  deriving Repr, DecidableEq

/-- The size getter: end - start as computed by the constructor; if either
bound is undefined the JavaScript subtraction yields NaN, modelled none. -/
def JSFile.size (f : JSFile) : Option Int :=
  match f.start, f.endPos with
  | some s, some e => some (e - s)
  | _, _ => none

/-- NodeFile.slice and DenoFile.slice: a new File over the same handle,
with each bound taken from the argument when it is truthy and from the
current File otherwise (the source uses a conditional of the form
start ? start : this._start). -/
def JSFile.slice (f : JSFile) (start endPos : Option Int) : JSFile :=
  { handle := f.handle
    start := if truthy start then start else f.start
    endPos := if truthy endPos then endPos else f.endPos }

/-- The host-environment data the top-level openFile dispatch consumes:
the DOM file picked in the browser picker, the Node and Deno handles with
the size reported by the Deno stat call, and the Bun file object. -/
structure HostEnv where
  pickedFile : Nat
  nodeHandle : Nat
  denoHandle : Nat
  denoSize : Int
  bunHandle : Nat
  deriving Repr, DecidableEq

/-- What openFile resolves to: either an instance of the library File
abstraction, or the host-native object passed through unwrapped. -/
inductive OpenResult where
  | libFile (f : JSFile)
  | hostNative (handle : Nat)
  deriving Repr, DecidableEq

/-- The top-level openFile dispatch. Browser: the promise resolves with
the DOM file from the picker, unwrapped. Node: new NodeFile(f) with no
start or end arguments. Deno: stat, then new DenoFile(f, 0, size). Bun:
the Bun.file object is returned directly (the BunFile wrap is commented
out in the source). Unrecognized runtimes fall through the switch. -/
def openFile (runtime : Nat) (env : HostEnv) : Option OpenResult :=
  if runtime = RUNTIME_BROWSER then
    some (OpenResult.hostNative env.pickedFile)
  else if runtime = RUNTIME_NODE then
    some (OpenResult.libFile { handle := env.nodeHandle, start := none, endPos := none })
  else if runtime = RUNTIME_DENO then
    some (OpenResult.libFile { handle := env.denoHandle, start := some 0, endPos := some env.denoSize })
  else if runtime = RUNTIME_BUN then
    some (OpenResult.hostNative env.bunHandle)
  else none

/-! Stream models. -/

/-- A Deno file handle: byte content plus the current read position,
moved by seek and advanced by reads. -/
structure DenoHandle where
  content : List Nat
  pos : Nat
  deriving Repr, DecidableEq

/-- Deno seek with SeekMode.Start: set the position to the offset. -/
def DenoHandle.seek (h : DenoHandle) (p : Nat) : DenoHandle :=
  { h with pos := p }

/-- One read from the readable of a Deno handle: at end of file it
reports done (none); otherwise it yields the next chunk of at most n
bytes from the current position and advances the position. -/
def DenoHandle.read (h : DenoHandle) (n : Nat) : Option (List Nat) × DenoHandle :=
  if h.pos < h.content.length then
    (some ((h.content.drop h.pos).take n),
     { h with pos := min (h.pos + n) h.content.length })
  else (none, h)

/-- The pull loop of the DenoFile stream: each pull reads once; a done
read closes the stream, any other chunk is enqueued. Draining the stream
concatenates every enqueued chunk. Fuel bounds the recursion; content
length + 1 pulls always suffice when chunks are nonempty. -/
def denoDrain (fuel : Nat) (h : DenoHandle) (chunkSize : Nat) : List Nat :=
  match fuel with
  | 0 => []
  | fuel' + 1 =>
    match h.read chunkSize with
    | (none, _) => []
    | (some chunk, h') => chunk ++ denoDrain fuel' h' chunkSize

/-- The bytes a full consumption of DenoFile.stream() delivers: when the
start offset is defined, the underlying-source start callback seeks to it
and every pull then reads the readable until end of file; the end offset
is never consulted. When start is undefined the native readable is
returned and read from the current position. -/
def denoFileStreamBytes (f : JSFile) (content : List Nat) (chunkSize : Nat) : List Nat :=
  let h : DenoHandle := { content := content, pos := 0 }
  match f.start with
  | some s => denoDrain (content.length + 1) (h.seek s.toNat) chunkSize
  | none => denoDrain (content.length + 1) h chunkSize

/-- Modelled from the Node fs contract NodeFile.stream relies on:
createReadStream with options start and end reads the bytes from start to
end INCLUSIVE of end, clamped to the file length; an undefined bound
means start of file respectively end of file. These are the bytes the
bridge forwards when the consumer always has capacity. -/
def nodeStreamBytes (f : JSFile) (content : List Nat) : List Nat :=
  let dropped :=
    match f.start with
    | some s => content.drop s.toNat
    | none => content
  match f.start, f.endPos with
  | some s, some e => (content.take (e.toNat + 1)).drop s.toNat
  | none, some e => content.take (e.toNat + 1)
  | _, none => dropped

/-! The stream bridge of NodeFile.stream: the push-based node stream is
adapted to a pull-based ReadableStream through three handlers (pull,
cancel, and the two node-stream event handlers for data and close) over
a single done flag. -/

/-- An event the bridge reacts to. The desired field carries the value of
controller.desiredSize the handler observes at that moment. -/
inductive BridgeEvent where
  | pull (desired : Int)
  | data (chunk : List Nat) (desired : Int)
  | closeEvt
  | cancel
  deriving Repr, DecidableEq

/-- An action a bridge handler performs, toward the downstream consumer
(enqueue, closeDownstream) or the node-stream producer (resumeProducer,
pauseProducer, closeProducer). -/
inductive BridgeAction where
  | enqueue (chunk : List Nat)
  | closeDownstream
  | resumeProducer
  | pauseProducer
  | closeProducer
  deriving Repr, DecidableEq

/-- The bridge state: the single done flag, initialized false. -/
structure BridgeState where
  done : Bool
  deriving Repr, DecidableEq

/-- One handler invocation, straight from the source: pull resumes the
producer when desired capacity is positive; the data handler enqueues the
chunk when desired capacity is positive and otherwise pauses the producer
(the chunk appears in no action and no state field); the close handler
closes the downstream only when the done flag is not yet set, then sets
it; cancel closes the producer and sets the done flag. -/
def bridgeStep (s : BridgeState) : BridgeEvent → BridgeState × List BridgeAction
  | .pull d => (s, if 0 < d then [.resumeProducer] else [])
  | .data c d => (s, if 0 < d then [.enqueue c] else [.pauseProducer])
  | .closeEvt => if s.done then (s, []) else ({ done := true }, [.closeDownstream])
  | .cancel => ({ done := true }, [.closeProducer])

/-- Run the bridge over a sequence of events, concatenating the actions
of every handler invocation in order. -/
def bridgeRun (s : BridgeState) : List BridgeEvent → BridgeState × List BridgeAction
  | [] => (s, [])
  | e :: rest =>
    let (s', acts) := bridgeStep s e
    let (s'', acts') := bridgeRun s' rest
    (s'', acts ++ acts')

/-- How many end-of-sequence signals a list of actions contains. -/
def closeCount (acts : List BridgeAction) : Nat :=
  (acts.filter (fun a => a = BridgeAction.closeDownstream)).length

/-! The seek-range reader construction model. -/

/-- An operation performed on the random-access handle. -/
inductive HandleOp where
  | seekOp (pos : Int)
  | readOp
  deriving Repr, DecidableEq

/-- Operations DenoFile.stream performs while the ReadableStream object
is being constructed: the start callback of the underlying source runs
inside the ReadableStream constructor, and when the start offset is
defined it seeks the handle to it (then takes a reader, which performs no
handle operation). -/
def denoStreamConstructOps (start : Option Int) : List HandleOp :=
  match start with
  | some s => [HandleOp.seekOp s]
  | none => []

/-- Operations one downstream pull performs: a single read, never a
seek. -/
def denoStreamPullOps : List HandleOp := [HandleOp.readOp]

/-- Operations a given number of consecutive pulls perform. -/
def pullsOps : Nat → List HandleOp
  | 0 => []
  | n + 1 => denoStreamPullOps ++ pullsOps n

/-- The operations performed by constructing the stream and then pulling
from it a given number of times. -/
def denoStreamOps (start : Option Int) (pulls : Nat) : List HandleOp :=
  denoStreamConstructOps start ++ pullsOps pulls

/-- How many seeks a list of handle operations contains. -/
def seekCount (ops : List HandleOp) : Nat :=
  (ops.filter (fun op => match op with | HandleOp.seekOp _ => true | _ => false)).length

/-! The directory tree model. -/

/-- One step of the normalization performed by the path-join utility the
Node directory tree calls: a parent segment pops the last accumulated
segment, dot and empty segments vanish, any other segment appends. -/
def resolveSegs : List String → List String → List String
  | acc, [] => acc
  | acc, seg :: rest =>
    if seg = ".." then resolveSegs acc.dropLast rest
    else if seg = "." ∨ seg = "" then resolveSegs acc rest
    else resolveSegs (acc ++ [seg]) rest

/-- Modelled from the contract of the path-join utility used by
NodeDirectoryTree.openFile (an external library): concatenate the root
path with the relative path and normalize, resolving parent segments
against the root. Paths are segment lists. -/
def pathJoin (root rel : List String) : List String := resolveSegs root rel

/-- A filesystem entry visible to the model: an absolute normalized path
and the size the stat call reports for it. -/
structure FsEntry where
  path : List String
  size : Int
  deriving Repr, DecidableEq

/-- Opening a path in the modelled filesystem: the handle exists exactly
for recorded entries, and stat reports the recorded size. -/
def lookupSize : List FsEntry → List String → Option Int
  | [], _ => none
  | entry :: rest, p => if entry.path = p then some entry.size else lookupSize rest p

/-- NodeDirectoryTree.openFile: join the relative path onto the root,
open the resulting absolute path (the open fails when no such file
exists), stat it, and wrap the handle as a File spanning 0 to size.
Nothing rejects a relative path whose resolution leaves the root; the
source marks this with a TODO about path security. -/
def NodeDirectoryTree.openFile (rootPath : List String) (fs : List FsEntry)
    (path : List String) : Option JSFile :=
  match lookupSize fs (pathJoin rootPath path) with
  | some sz => some { handle := 0, start := some 0, endPos := some sz }
  | none => none

/-- Whether a resolved absolute path lies under the given root. -/
def underRoot : List String → List String → Bool
  | [], _ => true
  | _ :: _, [] => false
  | r :: rs, x :: xs => r = x && underRoot rs xs

end FsJs

namespace FsJs

/-- C8: slice returns a new File over the same underlying handle, and
omitted arguments (undefined, modelled none) default to the current
start and end, so a no-argument slice reproduces the current range. -/
theorem c8_slice_same_handle_omitted_defaults (f : JSFile) (a b : Option Int) :
    (f.slice a b).handle = f.handle ∧
    (f.slice none none).start = f.start ∧
    (f.slice none none).endPos = f.endPos :=
  ⟨rfl, rfl, rfl⟩

/-- C9: a zero bound is treated like an omitted bound: slice with start
argument 0 keeps the current positive start, and slice with end argument
0 keeps the current end. -/
theorem c9_zero_bound_treated_as_omitted (f : JSFile) (s : Int) (e a : Option Int)
    (hs : f.start = some s) (hpos : 0 < s) :
    (f.slice (some 0) e).start = some s ∧
    (f.slice a (some 0)).endPos = f.endPos := by
  constructor
  · simp [JSFile.slice, truthy, hs]
  · simp [JSFile.slice, truthy]

/-- Witness for C9 at a File narrowed to the range from 3 to 7. -/
theorem c9_zero_bound_witness :
    (JSFile.slice { handle := 0, start := some 3, endPos := some 7 } (some 0) (some 5)).start
      = some 3 ∧
    (JSFile.slice { handle := 0, start := some 3, endPos := some 7 } (some 2) (some 0)).endPos
      = some 7 :=
  c9_zero_bound_treated_as_omitted
    { handle := 0, start := some 3, endPos := some 7 } 3 (some 5) (some 2) rfl (by decide)

/-- C3 counterexample: on a File over the range 0 to 10 (size 10), the
bounds start = 0 and end = 0 satisfy 0 <= start <= end <= size, yet
slice(0, 0) has size 10, not end - start = 0: the zero bounds are
treated as omitted and default to the current range. -/
theorem c3_zero_bounds_cex :
    (0:Int) ≤ 0 ∧ (0:Int) ≤ 0 ∧
    JSFile.size { handle := 0, start := some 0, endPos := some 10 } = some 10 ∧
    (JSFile.slice { handle := 0, start := some 0, endPos := some 10 }
      (some 0) (some 0)).size = some 10 ∧
    (some (10:Int) ≠ some ((0:Int) - 0)) := by
  refine ⟨le_refl 0, le_refl 0, rfl, rfl, ?_⟩
  decide

/-- C3 (amended): for integer bounds with 1 <= start <= end <= size, both
arguments are truthy, so slice(start, end) has size end - start. -/
theorem c3_slice_size_positive_bounds (f : JSFile) (s e sz : Int)
    (hsz : f.size = some sz) (h1 : 1 ≤ s) (h2 : s ≤ e) (h3 : e ≤ sz) :
    (f.slice (some s) (some e)).size = some (e - s) := by
  have hs : truthy (some s) = true := by
    simp only [truthy, bne_iff_ne, ne_eq, decide_eq_true_eq]
    omega
  have he : truthy (some e) = true := by
    simp only [truthy, bne_iff_ne, ne_eq, decide_eq_true_eq]
    omega
  simp [JSFile.slice, JSFile.size, hs, he]

/-- Witness for the amended C3 at a 10-byte File sliced to the range from
3 to 7. -/
theorem c3_slice_size_witness :
    (1:Int) ≤ 3 ∧
    (JSFile.slice { handle := 0, start := some 0, endPos := some 10 }
      (some 3) (some 7)).size = some (7 - 3) :=
  ⟨by decide,
   c3_slice_size_positive_bounds { handle := 0, start := some 0, endPos := some 10 }
     3 7 10 rfl (by decide) (by decide) (by decide)⟩

/-- C4 evaluation: on the Node runtime path, openFile returns a library
File constructed with no start and no end, whose size (end - start over
undefined operands, NaN in JavaScript) is invalid, modelled none. -/
theorem c4_node_openFile_invalid_size (env : HostEnv) :
    openFile RUNTIME_NODE env =
      some (OpenResult.libFile { handle := env.nodeHandle, start := none, endPos := none }) ∧
    JSFile.size { handle := env.nodeHandle, start := none, endPos := none } = none :=
  ⟨rfl, rfl⟩

/-- C10: in the Bun and browser runtimes, openFile resolves to the
host-native object (the Bun.file result, the picked DOM file), never to
an instance of the library File abstraction. -/
theorem c10_bun_browser_host_native (env : HostEnv) :
    openFile RUNTIME_BUN env = some (OpenResult.hostNative env.bunHandle) ∧
    openFile RUNTIME_BROWSER env = some (OpenResult.hostNative env.pickedFile) ∧
    (∀ f, openFile RUNTIME_BUN env ≠ some (OpenResult.libFile f)) ∧
    (∀ f, openFile RUNTIME_BROWSER env ≠ some (OpenResult.libFile f)) := by
  refine ⟨rfl, rfl, ?_, ?_⟩ <;> intro f h <;> simp [openFile, RUNTIME_BUN,
    RUNTIME_BROWSER, RUNTIME_NODE, RUNTIME_DENO] at h

/-- C1 evaluation at the failing input: a 10-byte file sliced to the
range from 3 to 7. The claim expects the 4 bytes at positions 3 to 6.
The Deno stream seeks to 3 and reads to end of file, delivering 7 bytes;
the Node stream reads positions 3 to 7 inclusive, delivering 5 bytes.
Neither stops at the end offset, so neither matches the claimed range. -/
theorem c1_slice_stream_not_range_limited :
    JSFile.slice { handle := 0, start := some 0, endPos := some 10 } (some 3) (some 7)
      = { handle := 0, start := some 3, endPos := some 7 } ∧
    denoFileStreamBytes { handle := 0, start := some 3, endPos := some 7 }
      [100, 101, 102, 103, 104, 105, 106, 107, 108, 109] 3
      = [103, 104, 105, 106, 107, 108, 109] ∧
    nodeStreamBytes { handle := 0, start := some 3, endPos := some 7 }
      [100, 101, 102, 103, 104, 105, 106, 107, 108, 109]
      = [103, 104, 105, 106, 107] ∧
    (([100, 101, 102, 103, 104, 105, 106, 107, 108, 109].drop 3).take (7 - 3)
      = [103, 104, 105, 106]) ∧
    denoFileStreamBytes { handle := 0, start := some 3, endPos := some 7 }
      [100, 101, 102, 103, 104, 105, 106, 107, 108, 109] 3
      ≠ ([100, 101, 102, 103, 104, 105, 106, 107, 108, 109].drop 3).take (7 - 3) ∧
    nodeStreamBytes { handle := 0, start := some 3, endPos := some 7 }
      [100, 101, 102, 103, 104, 105, 106, 107, 108, 109]
      ≠ ([100, 101, 102, 103, 104, 105, 106, 107, 108, 109].drop 3).take (7 - 3) := by
  refine ⟨rfl, by decide, by decide, by decide, by decide, by decide⟩

/-- C2 evaluation: when the data handler observes zero desired capacity
it only pauses the producer: no chunk is enqueued, the state is
unchanged (the bridge has no buffer to hold the chunk), and the result
of the handler does not depend on the chunk at all, so the chunk is
discarded, contradicting the buffering half of the claim. -/
theorem c2_zero_capacity_chunk_dropped :
    (∀ s c, (bridgeStep s (BridgeEvent.data c 0)).2 = [BridgeAction.pauseProducer]) ∧
    (∀ s c, (bridgeStep s (BridgeEvent.data c 0)).1 = s) ∧
    (∀ s c c', bridgeStep s (BridgeEvent.data c 0) = bridgeStep s (BridgeEvent.data c' 0)) := by
  refine ⟨?_, ?_, ?_⟩ <;> intros <;> simp [bridgeStep]

/-- C5 evaluation: with root the safe directory and an outside file
present in the filesystem, the relative path that climbs out of the root
resolves to the outside file and openFile opens it instead of failing,
while a path with no entry correctly fails. -/
theorem c5_path_traversal_opens_outside_root :
    (NodeDirectoryTree.openFile ["safe"] [{ path := ["etc", "passwd"], size := 5 }]
      ["..", "etc", "passwd"]).isSome = true ∧
    underRoot ["safe"] (pathJoin ["safe"] ["..", "etc", "passwd"]) = false ∧
    NodeDirectoryTree.openFile ["safe"] [{ path := ["etc", "passwd"], size := 5 }]
      ["missing"] = none := by
  refine ⟨by decide, by decide, by decide⟩

/-- C6 counterexample: constructing the stream for a defined start
offset and never pulling from it already performs the seek, because the
start callback of the underlying source runs inside the ReadableStream
constructor. -/
theorem c6_construct_performs_seek_cex :
    denoStreamOps (some 3) 0 = [HandleOp.seekOp 3] ∧
    denoStreamOps (some 3) 0 ≠ [] := by
  refine ⟨rfl, by decide⟩

/-- Helper: pulls never seek. -/
theorem pullsOps_seekCount (n : Nat) : seekCount (pullsOps n) = 0 := by
  induction n with
  | zero => rfl
  | succ k ih =>
    simp only [pullsOps, denoStreamPullOps, seekCount, List.filter_append,
      List.length_append] at ih ⊢
    simpa using ih

/-- C6 (amended): for a defined start offset the seek happens exactly
once per stream, in the start callback run at stream construction;
pulls only read, so any number of pulls adds no further seek. -/
theorem c6_seek_exactly_once_at_construction (s : Int) (n : Nat) :
    seekCount (denoStreamOps (some s) n) = 1 ∧
    seekCount (denoStreamConstructOps (some s)) = 1 := by
  constructor
  · simp only [denoStreamOps, denoStreamConstructOps, seekCount,
      List.filter_append, List.length_append]
    have h := pullsOps_seekCount n
    simp only [seekCount] at h
    simp [h]
  · rfl

/-- Helper: action lists concatenate additively under the
end-of-sequence count. -/
theorem closeCount_append (a b : List BridgeAction) :
    closeCount (a ++ b) = closeCount a + closeCount b := by
  simp [closeCount, List.filter_append]

/-- Helper: once the done flag is set, no handler ever signals
end-of-sequence again, whatever events arrive. -/
theorem bridgeRun_done_no_close (evs : List BridgeEvent) :
    closeCount (bridgeRun { done := true } evs).2 = 0 := by
  induction evs with
  | nil => rfl
  | cons e rest ih =>
    cases e with
    | pull d =>
      simp only [bridgeRun, bridgeStep, closeCount_append, ih]
      split <;> simp [closeCount]
    | data c d =>
      simp only [bridgeRun, bridgeStep, closeCount_append, ih]
      split <;> simp [closeCount]
    | closeEvt =>
      simpa [bridgeRun, bridgeStep, closeCount_append, closeCount] using ih
    | cancel =>
      simpa [bridgeRun, bridgeStep, closeCount_append, closeCount] using ih

/-- C7: from the initial state the bridge signals end-of-sequence to the
downstream at most once over any event sequence; an end notification
arriving first signals it exactly once and later notifications add
nothing; after a cancellation it is never signalled; and from a closed
bridge it is never signalled at all. -/
theorem c7_end_signalled_at_most_once :
    (∀ evs, closeCount (bridgeRun { done := false } evs).2 ≤ 1) ∧
    (∀ evs, closeCount (bridgeRun { done := false } (BridgeEvent.closeEvt :: evs)).2 = 1) ∧
    (∀ evs, closeCount (bridgeRun { done := false } (BridgeEvent.cancel :: evs)).2 = 0) ∧
    (∀ evs, closeCount (bridgeRun { done := true } evs).2 = 0) := by
  have hfresh : ∀ evs, closeCount (bridgeRun { done := false } evs).2 ≤ 1 := by
    intro evs
    induction evs with
    | nil => simp [bridgeRun, closeCount]
    | cons e rest ih =>
      cases e with
      | pull d =>
        simp only [bridgeRun, bridgeStep, closeCount_append]
        split <;> simpa [closeCount] using ih
      | data c d =>
        simp only [bridgeRun, bridgeStep, closeCount_append]
        split <;> simpa [closeCount] using ih
      | closeEvt =>
        have h := bridgeRun_done_no_close rest
        have e1 : (bridgeRun { done := false } (BridgeEvent.closeEvt :: rest)).2
            = [BridgeAction.closeDownstream] ++ (bridgeRun { done := true } rest).2 := rfl
        rw [e1, closeCount_append, h]
        decide
      | cancel =>
        have h := bridgeRun_done_no_close rest
        have e1 : (bridgeRun { done := false } (BridgeEvent.cancel :: rest)).2
            = [BridgeAction.closeProducer] ++ (bridgeRun { done := true } rest).2 := rfl
        rw [e1, closeCount_append, h]
        decide
  refine ⟨hfresh, ?_, ?_, bridgeRun_done_no_close⟩
  · intro evs
    have h := bridgeRun_done_no_close evs
    have e1 : (bridgeRun { done := false } (BridgeEvent.closeEvt :: evs)).2
        = [BridgeAction.closeDownstream] ++ (bridgeRun { done := true } evs).2 := rfl
    rw [e1, closeCount_append, h]
    decide
  · intro evs
    have h := bridgeRun_done_no_close evs
    have e1 : (bridgeRun { done := false } (BridgeEvent.cancel :: evs)).2
        = [BridgeAction.closeProducer] ++ (bridgeRun { done := true } evs).2 := rfl
    rw [e1, closeCount_append, h]
    decide

end FsJs
